import Mathlib

/-!
# SmartDB: verified model of the SQL synthesis and execution pipeline

A shallow embedding of the SmartDB backend (`backend/models/sql/sql_executor.py`,
`backend/models/nlp/nl_to_sql.py`, `backend/models/image_processing/er_to_sql.py`,
`backend/utils/helpers.py`).  Python strings are modelled as `List Char`
(sequences of code points, ASCII in all inputs of interest); Python `str.strip`,
`str.split`, `str.startswith`, `str.endswith`, `str.upper`, `str.lower` and
f-string concatenation are modelled character by character.
-/

namespace SmartDB

/-- The model of a Python string: a list of characters. -/
abbrev Str := List Char

/-- Characters removed by Python `str.strip()` (ASCII whitespace). -/
def isPySpace (c : Char) : Bool :=
  c = ' ' || c = '\t' || c = '\n' || c = '\r' || c = '\x0b' || c = '\x0c'

/-- Python `s.strip()`: drop leading and trailing whitespace. -/
def pyStrip (s : Str) : Str :=
  List.rdropWhile isPySpace (s.dropWhile isPySpace)

/-- Python `s.split("\n")`: split a string at newline characters.
Always returns at least one (possibly empty) piece. -/
def splitOnNewline : Str → List Str
  | [] => [[]]
  | c :: cs =>
    if c = '\n' then [] :: splitOnNewline cs
    else
      match splitOnNewline cs with
      | [] => [[c]]
      | l :: ls => (c :: l) :: ls

/-- `SQLExecutor._split_sql_statements`, inner loop over the lines of the
script.  `cur` is the `current_statement` accumulator. -/
def splitLoop : List Str → Str → List Str
  | [], cur =>
    if pyStrip cur ≠ [] then [pyStrip cur] else []
  | l :: ls, cur =>
    let line := pyStrip l
    if "--".toList <+: line ∨ "#".toList <+: line ∨ line = [] then
      splitLoop ls cur
    else
      let cur2 := cur ++ ' ' :: line
      if ";".toList <:+ line then
        pyStrip cur2 :: splitLoop ls []
      else
        splitLoop ls cur2

/-- `SQLExecutor._split_sql_statements` (sql_executor.py, lines 110-136). -/
def split_sql_statements (sql_code : Str) : List Str :=
  splitLoop (splitOnNewline sql_code) []

/-! ### Facts about `pyStrip` -/

theorem pyStrip_subset {s : Str} : pyStrip s ⊆ s := by
  intro c hc
  have h1 : c ∈ s.dropWhile isPySpace :=
    ( List.rdropWhile_prefix isPySpace (s.dropWhile isPySpace)).sublist.subset hc
  exact (List.dropWhile_suffix isPySpace).sublist.subset h1

theorem pyStrip_eq_nil_iff {s : Str} :
    pyStrip s = [] ↔ ∀ c ∈ s, isPySpace c := by
  unfold pyStrip
  rw [List.rdropWhile_eq_nil_iff]
  constructor
  · intro h c hc
    rcases List.mem_append.mp
        ((List.takeWhile_append_dropWhile (p := isPySpace) (l := s)) ▸ hc) with h1 | h1
    · exact List.mem_takeWhile_imp h1
    · exact h c h1
  · intro h c hc
    exact h c ((List.dropWhile_suffix isPySpace).sublist.subset hc)

theorem pyStrip_cons_space (s : Str) : pyStrip (' ' :: s) = pyStrip s := by
  unfold pyStrip
  rw [List.dropWhile_cons]
  simp [isPySpace]

theorem pyStrip_eq_self_iff {x : Str} :
    pyStrip x = x ↔
      x.dropWhile isPySpace = x ∧ x.rdropWhile isPySpace = x := by
  constructor
  · intro h
    have hpre : x <+: x.dropWhile isPySpace := by
      conv_lhs => rw [← h]
      exact List.rdropWhile_prefix _ _
    have hsuf : x.dropWhile isPySpace <:+ x := List.dropWhile_suffix _
    have hlen : (x.dropWhile isPySpace).length = x.length :=
      Nat.le_antisymm hsuf.sublist.length_le hpre.sublist.length_le
    have hdw : x.dropWhile isPySpace = x := hsuf.eq_of_length hlen
    refine ⟨hdw, ?_⟩
    rw [pyStrip, hdw] at h
    exact h
  · intro ⟨h1, h2⟩
    rw [pyStrip, h1, h2]

theorem pyStrip_idem (s : Str) : pyStrip (pyStrip s) = pyStrip s := by
  rw [pyStrip_eq_self_iff]
  constructor
  · cases hps : pyStrip s with
    | nil => rfl
    | cons a l2 =>
      have hA : (s.dropWhile isPySpace).dropWhile isPySpace = s.dropWhile isPySpace :=
        List.dropWhile_idempotent _ _
      have hpre : pyStrip s <+: s.dropWhile isPySpace := List.rdropWhile_prefix _ _
      obtain ⟨t, ht⟩ := hpre
      rw [hps] at ht
      rw [← ht, List.cons_append, List.dropWhile_cons] at hA
      by_cases hpa : isPySpace a
      · rw [if_pos hpa] at hA
        have hlen := (List.dropWhile_suffix (l := l2 ++ t) isPySpace).sublist.length_le
        rw [hA] at hlen
        simp only [List.length_cons] at hlen
        omega
      · rw [List.dropWhile_cons, if_neg hpa]
  · exact List.rdropWhile_idempotent _ _

theorem pyStrip_of_head_getLast {x : Str} (hx : x ≠ [])
    (h1 : ¬ isPySpace (x.head hx)) (h2 : ¬ isPySpace (x.getLast hx)) :
    pyStrip x = x := by
  rw [pyStrip_eq_self_iff]
  constructor
  · rw [List.dropWhile_eq_self_iff]
    intro hl
    have : x.get ⟨0, hl⟩ = x.head hx := by
      cases x with
      | nil => exact absurd rfl hx
      | cons a l => rfl
    rwa [this]
  · rw [List.rdropWhile_eq_self_iff]
    intro _
    exact h2

theorem pyStrip_ne_nil_of_mem {s : Str} {c : Char} (hc : c ∈ s)
    (hns : ¬ isPySpace c) : pyStrip s ≠ [] := by
  intro h
  exact hns (pyStrip_eq_nil_iff.mp h c hc)

/-! ### Facts about `splitOnNewline` -/

theorem splitOnNewline_no_newline (s : Str) :
    ∀ l ∈ splitOnNewline s, '\n' ∉ l := by
  induction s with
  | nil =>
    intro l hl
    simp only [splitOnNewline, List.mem_singleton] at hl
    simp [hl]
  | cons c cs ih =>
    intro l hl
    unfold splitOnNewline at hl
    by_cases hc : c = '\n'
    · rw [if_pos hc] at hl
      rcases List.mem_cons.mp hl with h | h
      · simp [h]
      · exact ih l h
    · rw [if_neg hc] at hl
      rcases hrec : splitOnNewline cs with _ | ⟨m, ms⟩
      · rw [hrec] at hl
        simp only [List.mem_singleton] at hl
        subst hl
        intro hmem
        rcases List.mem_singleton.mp hmem with h
        exact hc h.symm
      · rw [hrec] at hl
        rcases List.mem_cons.mp hl with h | h
        · subst h
          intro hmem
          rcases List.mem_cons.mp hmem with h | h
          · exact hc h.symm
          · exact ih m (hrec ▸ List.mem_cons_self m ms) h
        · exact ih l (hrec ▸ List.mem_cons_of_mem m h)

/-! ### The splitter invariant (claim C10) -/

theorem splitLoop_cons (l : Str) (ls : List Str) (cur : Str) :
    splitLoop (l :: ls) cur =
      if "--".toList <+: pyStrip l ∨ "#".toList <+: pyStrip l ∨ pyStrip l = [] then
        splitLoop ls cur
      else if ";".toList <:+ pyStrip l then
        pyStrip (cur ++ ' ' :: pyStrip l) :: splitLoop ls []
      else
        splitLoop ls (cur ++ ' ' :: pyStrip l) := rfl

theorem splitLoop_wf :
    ∀ (ls : List Str) (cur : Str), (∀ l ∈ ls, '\n' ∉ l) → '\n' ∉ cur →
      ∀ stmt ∈ splitLoop ls cur,
        pyStrip stmt = stmt ∧ stmt ≠ [] ∧ '\n' ∉ stmt := by
  intro ls
  induction ls with
  | nil =>
    intro cur _ hcur stmt hstmt
    unfold splitLoop at hstmt
    by_cases h : pyStrip cur ≠ []
    · rw [if_pos h] at hstmt
      rcases List.mem_singleton.mp hstmt with rfl
      exact ⟨pyStrip_idem cur, h, fun hm => hcur (pyStrip_subset hm)⟩
    · rw [if_neg h] at hstmt
      exact absurd hstmt (List.not_mem_nil stmt)
  | cons l ls ih =>
    intro cur hls hcur stmt hstmt
    rw [splitLoop_cons] at hstmt
    have hlsub : ∀ m ∈ ls, '\n' ∉ m := fun m hm => hls m (List.mem_cons_of_mem l hm)
    have hline : '\n' ∉ pyStrip l :=
      fun hm => hls l (List.mem_cons_self l ls) (pyStrip_subset hm)
    by_cases hskip : "--".toList <+: pyStrip l ∨ "#".toList <+: pyStrip l ∨ pyStrip l = []
    · rw [if_pos hskip] at hstmt
      exact ih cur hlsub hcur stmt hstmt
    · rw [if_neg hskip] at hstmt
      have hcur2 : '\n' ∉ cur ++ ' ' :: pyStrip l := by
        intro hm
        rcases List.mem_append.mp hm with h | h
        · exact hcur h
        · rcases List.mem_cons.mp h with h | h
          · exact absurd h.symm (by decide)
          · exact hline h
      by_cases hsemi : ";".toList <:+ pyStrip l
      · rw [if_pos hsemi] at hstmt
        rcases List.mem_cons.mp hstmt with rfl | hmem
        · refine ⟨pyStrip_idem _, ?_, fun hm => hcur2 (pyStrip_subset hm)⟩
          have hsc : ';' ∈ cur ++ ' ' :: pyStrip l := by
            have h1 : ';' ∈ pyStrip l := hsemi.subset (by decide)
            exact List.mem_append.mpr (Or.inr (List.mem_cons_of_mem _ h1))
          exact pyStrip_ne_nil_of_mem hsc (by decide)
        · exact ih [] hlsub (List.not_mem_nil '\n') stmt hmem
      · rw [if_neg hsemi] at hstmt
        exact ih _ hlsub hcur2 stmt hstmt

/-- C10: every statement produced by `_split_sql_statements` is non-empty,
already stripped of leading/trailing whitespace, contains no newline, and in
particular survives the `if not stmt.strip(): continue` guard in
`SQLExecutor.execute`. -/
theorem C10_splitter_output_invariant (sql stmt : Str)
    (hmem : stmt ∈ split_sql_statements sql) :
    pyStrip stmt = stmt ∧ stmt ≠ [] ∧ '\n' ∉ stmt ∧ pyStrip stmt ≠ [] := by
  have h := splitLoop_wf (splitOnNewline sql) []
    (splitOnNewline_no_newline sql) (List.not_mem_nil '\n') stmt hmem
  exact ⟨h.1, h.2.1, h.2.2, fun hn => h.2.1 (h.1 ▸ hn)⟩

/-- Witness for C10 at a concrete input. -/
theorem C10_witness :
    "SELECT 1;".toList ∈ split_sql_statements "SELECT 1;".toList ∧
      (pyStrip "SELECT 1;".toList = "SELECT 1;".toList ∧
        "SELECT 1;".toList ≠ [] ∧ '\n' ∉ "SELECT 1;".toList ∧
        pyStrip "SELECT 1;".toList ≠ []) :=
  ⟨by decide, C10_splitter_output_invariant "SELECT 1;".toList "SELECT 1;".toList (by decide)⟩

/-! ### The splitter matches the spec's line-by-line description (claim C6)

The specification describes the splitter as: strip each line, skip blank and
comment lines, accumulate the remaining lines joined by single spaces, flush on
a trailing `;`, and flush a non-empty remainder at the end.  We state that
description as a separate definition (`split_spec`) over the list of kept
stripped lines, and prove the code equal to it. -/

/-- Is a (stripped) line skipped by the splitter: a `--` comment, a `#`
comment, or blank? -/
def lineSkipped (line : Str) : Bool :=
  decide ("--".toList <+: line) || decide ("#".toList <+: line) || decide (line = [])

/-- The stripped lines of the script that are not skipped. -/
def keptLines (sql : Str) : List Str :=
  ((splitOnNewline sql).map pyStrip).filter (fun l => ! lineSkipped l)

/-- Join a list of lines with single spaces. -/
def joinSp : List Str → Str
  | [] => []
  | [l] => l
  | l :: ls => l ++ ' ' :: joinSp ls

/-- The spec's description of the splitter, over the kept stripped lines:
accumulate lines into a buffer, flush the buffer (joined by single spaces)
whenever a line ends in `;`, and flush any non-empty remainder at the end. -/
def specLoop : List Str → List Str → List Str
  | [], buf => if buf = [] then [] else [joinSp buf]
  | l :: ls, buf =>
    if ";".toList <:+ l then joinSp (buf ++ [l]) :: specLoop ls []
    else specLoop ls (buf ++ [l])

/-- The spec-side splitter. -/
def split_spec (sql : Str) : List Str :=
  specLoop (keptLines sql) []

theorem not_space_head_of_dropWhile_eq {a : Char} {l2 : Str}
    (h : List.dropWhile isPySpace (a :: l2) = a :: l2) : ¬ isPySpace a := by
  intro hpa
  rw [List.dropWhile_cons, if_pos hpa] at h
  have hlen := (List.dropWhile_suffix (l := l2) isPySpace).sublist.length_le
  rw [h] at hlen
  simp only [List.length_cons] at hlen
  omega

theorem dropWhile_append_eq_self {b y : Str}
    (hb : List.dropWhile isPySpace b = b) (hbne : b ≠ []) :
    List.dropWhile isPySpace (b ++ y) = b ++ y := by
  cases b with
  | nil => exact absurd rfl hbne
  | cons a b2 =>
    have hna := not_space_head_of_dropWhile_eq hb
    rw [List.cons_append, List.dropWhile_cons, if_neg hna]

theorem rdropWhile_append_eq_self {x y : Str}
    (hy : List.rdropWhile isPySpace y = y) (hyne : y ≠ []) :
    List.rdropWhile isPySpace (x ++ y) = x ++ y := by
  rw [List.rdropWhile_eq_self_iff]
  intro h
  rw [List.getLast_append_of_ne_nil hyne]
  exact List.rdropWhile_eq_self_iff.mp hy hyne

theorem joinSp_ne_nil {buf : List Str}
    (hg : ∀ l ∈ buf, pyStrip l = l ∧ l ≠ []) (hne : buf ≠ []) :
    joinSp buf ≠ [] := by
  cases buf with
  | nil => exact absurd rfl hne
  | cons b bs =>
    have hb := (hg b (List.mem_cons_self b bs)).2
    cases bs with
    | nil => exact hb
    | cons m ms =>
      show b ++ ' ' :: joinSp (m :: ms) ≠ []
      simp

theorem joinSp_append_singleton {buf : List Str} (l : Str) (h : buf ≠ []) :
    joinSp (buf ++ [l]) = joinSp buf ++ ' ' :: l := by
  induction buf with
  | nil => exact absurd rfl h
  | cons b bs ih =>
    cases bs with
    | nil => rfl
    | cons m ms =>
      show b ++ ' ' :: joinSp ((m :: ms) ++ [l]) = (b ++ ' ' :: joinSp (m :: ms)) ++ ' ' :: l
      rw [ih (by simp)]
      simp

theorem pyStrip_joinSp :
    ∀ (buf : List Str), (∀ l ∈ buf, pyStrip l = l ∧ l ≠ []) → buf ≠ [] →
      pyStrip (joinSp buf) = joinSp buf := by
  intro buf
  induction buf with
  | nil => intro _ h; exact absurd rfl h
  | cons b bs ih =>
    intro hg _
    have hb := hg b (List.mem_cons_self b bs)
    cases bs with
    | nil => exact hb.1
    | cons m ms =>
      have hrest : pyStrip (joinSp (m :: ms)) = joinSp (m :: ms) :=
        ih (fun l hl => hg l (List.mem_cons_of_mem b hl)) (by simp)
      have hrestne : joinSp (m :: ms) ≠ [] :=
        joinSp_ne_nil (fun l hl => hg l (List.mem_cons_of_mem b hl)) (by simp)
      show pyStrip (b ++ ' ' :: joinSp (m :: ms)) = b ++ ' ' :: joinSp (m :: ms)
      rw [pyStrip_eq_self_iff]
      constructor
      · exact dropWhile_append_eq_self (pyStrip_eq_self_iff.mp hb.1).1 hb.2
      · refine rdropWhile_append_eq_self ?_ (by simp)
        rw [List.rdropWhile_eq_self_iff]
        intro h
        rw [List.getLast_cons hrestne]
        exact List.rdropWhile_eq_self_iff.mp (pyStrip_eq_self_iff.mp hrest).2 hrestne

/-- The `current_statement` string corresponding to a spec-side buffer: the
code's accumulator always carries one leading space per appended line. -/
def curOf : List Str → Str
  | [] => []
  | buf => ' ' :: joinSp buf

theorem curOf_append_singleton (buf : List Str) (l : Str) :
    curOf buf ++ ' ' :: l = curOf (buf ++ [l]) := by
  cases buf with
  | nil => rfl
  | cons b bs =>
    show (' ' :: joinSp (b :: bs)) ++ ' ' :: l = ' ' :: joinSp ((b :: bs) ++ [l])
    rw [joinSp_append_singleton l (by simp)]
    simp

theorem pyStrip_curOf {buf : List Str}
    (hg : ∀ l ∈ buf, pyStrip l = l ∧ l ≠ []) (hne : buf ≠ []) :
    pyStrip (curOf buf) = joinSp buf := by
  cases buf with
  | nil => exact absurd rfl hne
  | cons b bs =>
    show pyStrip (' ' :: joinSp (b :: bs)) = joinSp (b :: bs)
    rw [pyStrip_cons_space]
    exact pyStrip_joinSp _ hg (by simp)

theorem splitLoop_eq_specLoop :
    ∀ (ls : List Str) (buf : List Str), (∀ l ∈ buf, pyStrip l = l ∧ l ≠ []) →
      splitLoop ls (curOf buf) =
        specLoop ((ls.map pyStrip).filter (fun l => ! lineSkipped l)) buf := by
  intro ls
  induction ls with
  | nil =>
    intro buf hg
    show (if pyStrip (curOf buf) ≠ [] then [pyStrip (curOf buf)] else []) =
      if buf = [] then [] else [joinSp buf]
    by_cases hb : buf = []
    · subst hb
      rfl
    · rw [if_neg hb, pyStrip_curOf hg hb, if_pos (joinSp_ne_nil hg hb)]
  | cons l ls ih =>
    intro buf hg
    rw [splitLoop_cons]
    have hskip_iff : lineSkipped (pyStrip l) = true ↔
        ("--".toList <+: pyStrip l ∨ "#".toList <+: pyStrip l ∨ pyStrip l = []) := by
      simp [lineSkipped, or_assoc]
    by_cases hskip : "--".toList <+: pyStrip l ∨ "#".toList <+: pyStrip l ∨ pyStrip l = []
    · have hfilter : ((l :: ls).map pyStrip).filter (fun l => ! lineSkipped l) =
          (ls.map pyStrip).filter (fun l => ! lineSkipped l) := by
        simp [List.filter_cons, hskip_iff.mpr hskip]
      rw [if_pos hskip, hfilter]
      exact ih buf hg
    · have hskipb : lineSkipped (pyStrip l) = false := by
        rw [Bool.eq_false_iff]
        intro h
        exact hskip (hskip_iff.mp h)
      have hfilter : ((l :: ls).map pyStrip).filter (fun l => ! lineSkipped l) =
          pyStrip l :: (ls.map pyStrip).filter (fun l => ! lineSkipped l) := by
        simp [List.filter_cons, hskipb]
      rw [if_neg hskip, hfilter]
      have hlg : pyStrip (pyStrip l) = pyStrip l ∧ pyStrip l ≠ [] :=
        ⟨pyStrip_idem l, fun h => hskip (Or.inr (Or.inr h))⟩
      have hg2 : ∀ m ∈ buf ++ [pyStrip l], pyStrip m = m ∧ m ≠ [] := by
        intro m hm
        rcases List.mem_append.mp hm with h | h
        · exact hg m h
        · rcases List.mem_singleton.mp h with rfl
          exact hlg
      show _ = specLoop (pyStrip l :: (ls.map pyStrip).filter (fun l => ! lineSkipped l)) buf
      rw [show specLoop (pyStrip l :: (ls.map pyStrip).filter (fun l => ! lineSkipped l)) buf =
          if ";".toList <:+ pyStrip l then
            joinSp (buf ++ [pyStrip l]) ::
              specLoop ((ls.map pyStrip).filter (fun l => ! lineSkipped l)) []
          else
            specLoop ((ls.map pyStrip).filter (fun l => ! lineSkipped l)) (buf ++ [pyStrip l])
          from rfl]
      by_cases hsemi : ";".toList <:+ pyStrip l
      · rw [if_pos hsemi, if_pos hsemi, curOf_append_singleton, pyStrip_curOf hg2 (by simp),
          show ([] : Str) = curOf [] from rfl,
          ih [] (by intro m hm; exact absurd hm (List.not_mem_nil m))]
      · rw [if_neg hsemi, if_neg hsemi, curOf_append_singleton]
        exact ih (buf ++ [pyStrip l]) hg2

/-- C6: the statement splitter implements the spec's line-by-line description
(strip lines; skip blank, `--` and `#` lines; accumulate kept lines joined by
single spaces; flush on a trailing `;`; flush any non-empty remainder), and on
the script `"SELECT 1;\n-- comment\nSELECT 2;"` it yields exactly the two
statements `"SELECT 1;"` and `"SELECT 2;"`. -/
theorem C6_splitter_algorithm :
    (∀ sql : Str, split_sql_statements sql = split_spec sql) ∧
      split_sql_statements "SELECT 1;\n-- comment\nSELECT 2;".toList =
        ["SELECT 1;".toList, "SELECT 2;".toList] := by
  constructor
  · intro sql
    have h := splitLoop_eq_specLoop (splitOnNewline sql) []
      (by intro m hm; exact absurd hm (List.not_mem_nil m))
    exact h
  · decide

/-! ### The SQL executor (claims C1 and C7)

`SQLExecutor.execute` is modelled with the underlying engine abstracted as a
function `db : Nat → Outcome` giving the engine's response to the i-th
`cursor.execute` call, and with an explicit event trace recording the
`cursor.execute` and `connection.commit` calls made. -/

/-- A result row, as fetched by `cursor.fetchall()` (opaque to the executor). -/
abbrev Row := List Str

/-- Response of the engine to one `cursor.execute` call: success (with the
column names and rows a fetch would return), or an exception carrying a
message. -/
inductive Outcome where
  | ok (columns : List Str) (rows : List Row)
  | err (msg : Str)
deriving DecidableEq

/-- Did the call succeed? -/
def Outcome.isOk : Outcome → Bool
  | ok _ _ => true
  | err _ => false

/-- One fetched `SELECT` result, as appended to `results`. -/
structure QueryResult where
  columns : List Str
  rows : List Row
deriving DecidableEq

/-- Database-side events of one `execute` call. -/
inductive Event where
  | exec (stmt : Str)
  | commit
deriving DecidableEq

/-- Python `stmt[:50] + ('...' if len(stmt) > 50 else '')`. -/
def truncate50 (s : Str) : Str :=
  s.take 50 ++ (if 50 < s.length then "...".toList else [])

/-- Python `s.upper()` (ASCII). -/
def pyUpper (s : Str) : Str := s.map Char.toUpper

/-- The test `stmt.strip().upper().startswith("SELECT")`. -/
def isSelect (stmt : Str) : Bool :=
  decide ("SELECT".toList <+: pyUpper (pyStrip stmt))

/-- Log line `f"Successfully executed: {stmt[:50]}..."`. -/
def successLog (stmt : Str) : Str :=
  "Successfully executed: ".toList ++ truncate50 stmt

/-- Log line `f"Retrieved {len(rows)} rows"`. -/
def rowsLog (n : Nat) : Str :=
  "Retrieved ".toList ++ (Nat.repr n).toList ++ " rows".toList

/-- Log line `f"Error executing statement: {stmt[:50]}..."`. -/
def errorLog1 (stmt : Str) : Str :=
  "Error executing statement: ".toList ++ truncate50 stmt

/-- Log line `f"Error message: {str(e)}"`. -/
def errorLog2 (msg : Str) : Str :=
  "Error message: ".toList ++ msg

/-- The success message of `execute`. -/
def successMessage : Str := "SQL execution completed successfully".toList

/-- Python `"\n".join(log)`. -/
def joinNL : List Str → Str
  | [] => []
  | [l] => l
  | l :: ls => l ++ '\n' :: joinNL ls

/-- Intermediate state returned by the statement loop of `execute`. -/
structure LoopOut where
  success : Bool
  message : Str
  logList : List Str
  results : Option (List QueryResult)
  events : List Event
deriving DecidableEq

/-- The per-statement loop of `SQLExecutor.execute` (lines 70-99), together
with the commit on the all-success path (line 102): `i` counts the
`cursor.execute` calls made so far. -/
def execLoop (db : Nat → Outcome) :
    List Str → Nat → List Str → List QueryResult → List Event → LoopOut
  | [], _, log, res, evs =>
    ⟨true, successMessage, log, some res, evs ++ [Event.commit]⟩
  | stmt :: rest, i, log, res, evs =>
    if pyStrip stmt = [] then
      execLoop db rest i log res evs
    else
      match db i with
      | Outcome.ok cols rows =>
        if isSelect stmt then
          execLoop db rest (i + 1)
            (log ++ [successLog stmt, rowsLog rows.length])
            (res ++ [⟨cols, rows⟩]) (evs ++ [Event.exec stmt])
        else
          execLoop db rest (i + 1) (log ++ [successLog stmt]) res (evs ++ [Event.exec stmt])
      | Outcome.err m =>
        ⟨false, m, log ++ [errorLog1 stmt, errorLog2 m], none, evs ++ [Event.exec stmt]⟩

/-- The message of the `NotImplementedError` raised in `connect` for an
engine other than sqlite. -/
def notImplementedMessage (engine : Str) : Str :=
  "Database engine ".toList ++ engine ++ " not implemented yet".toList

/-- Does `SQLExecutor.connect` return `True`?  Only sqlite is implemented;
for any other engine the `NotImplementedError` is caught by the `except`
block, its message is printed, and `connect` returns `False`. -/
def connectOk (engine : Str) : Bool := decide (engine = "sqlite".toList)

/-- What `connect` prints (`print(f"Error connecting to database: {e}")`). -/
def connectPrinted (engine : Str) : List Str :=
  if connectOk engine then []
  else ["Error connecting to database: ".toList ++ notImplementedMessage engine]

/-- The observable result of one `SQLExecutor.execute` call: the returned
dictionary (`success`, `message`, `log`, and `results` when present), the
events sent to the engine, and anything printed to stdout. -/
structure ExecOut where
  success : Bool
  message : Str
  log : Str
  results : Option (List QueryResult)
  events : List Event
  printed : List Str
deriving DecidableEq

/-- `SQLExecutor.execute` (sql_executor.py, lines 53-108).  `connected` is
whether `self.db_connection` is already set; when it is not, `execute` first
calls `connect` and returns the fixed failure dictionary if that fails. -/
def execute (engine : Str) (connected : Bool) (db : Nat → Outcome)
    (sql_code : Str) : ExecOut :=
  let printed := if connected then [] else connectPrinted engine
  if connected || connectOk engine then
    let out := execLoop db (split_sql_statements sql_code) 0 [] [] []
    ⟨out.success, out.message, joinNL out.logList, out.results, out.events, printed⟩
  else
    ⟨false, "Failed to connect to database".toList, [], none, [], printed⟩

/-! ### Closed forms for the loop (spec side of claim C1) -/

/-- The log entries contributed by the statement executed as call `i`. -/
def stmtLog (db : Nat → Outcome) (i : Nat) (stmt : Str) : List Str :=
  match db i with
  | Outcome.ok _ rows =>
    if isSelect stmt then [successLog stmt, rowsLog rows.length] else [successLog stmt]
  | Outcome.err m => [errorLog1 stmt, errorLog2 m]

/-- The log accumulated over a list of statements starting at call `i`. -/
def logsFrom (db : Nat → Outcome) : Nat → List Str → List Str
  | _, [] => []
  | i, s :: rest => stmtLog db i s ++ logsFrom db (i + 1) rest

/-- The `SELECT` results collected over a list of statements. -/
def resultsFrom (db : Nat → Outcome) : Nat → List Str → List QueryResult
  | _, [] => []
  | i, s :: rest =>
    match db i with
    | Outcome.ok cols rows =>
      if isSelect s then ⟨cols, rows⟩ :: resultsFrom db (i + 1) rest
      else resultsFrom db (i + 1) rest
    | Outcome.err _ => resultsFrom db (i + 1) rest

theorem execLoop_cons_eq (db : Nat → Outcome) (stmt : Str) (rest : List Str)
    (i : Nat) (log : List Str) (res : List QueryResult) (evs : List Event) :
    execLoop db (stmt :: rest) i log res evs =
      if pyStrip stmt = [] then
        execLoop db rest i log res evs
      else
        match db i with
        | Outcome.ok cols rows =>
          if isSelect stmt then
            execLoop db rest (i + 1)
              (log ++ [successLog stmt, rowsLog rows.length])
              (res ++ [⟨cols, rows⟩]) (evs ++ [Event.exec stmt])
          else
            execLoop db rest (i + 1) (log ++ [successLog stmt]) res (evs ++ [Event.exec stmt])
        | Outcome.err m =>
          ⟨false, m, log ++ [errorLog1 stmt, errorLog2 m], none, evs ++ [Event.exec stmt]⟩ := rfl

theorem execLoop_cons_ok {db : Nat → Outcome} {i : Nat} {cols : List Str}
    {rows : List Row} (stmt : Str) (rest : List Str) (log : List Str)
    (res : List QueryResult) (evs : List Event)
    (hne : ¬ pyStrip stmt = []) (hdb : db i = Outcome.ok cols rows) :
    execLoop db (stmt :: rest) i log res evs =
      if isSelect stmt then
        execLoop db rest (i + 1)
          (log ++ [successLog stmt, rowsLog rows.length])
          (res ++ [⟨cols, rows⟩]) (evs ++ [Event.exec stmt])
      else
        execLoop db rest (i + 1) (log ++ [successLog stmt]) res (evs ++ [Event.exec stmt]) := by
  rw [execLoop_cons_eq, if_neg hne, hdb]

theorem execLoop_cons_err {db : Nat → Outcome} {i : Nat} {m : Str}
    (stmt : Str) (rest : List Str) (log : List Str)
    (res : List QueryResult) (evs : List Event)
    (hne : ¬ pyStrip stmt = []) (hdb : db i = Outcome.err m) :
    execLoop db (stmt :: rest) i log res evs =
      ⟨false, m, log ++ [errorLog1 stmt, errorLog2 m], none, evs ++ [Event.exec stmt]⟩ := by
  rw [execLoop_cons_eq, if_neg hne, hdb]

theorem execLoop_all_ok (db : Nat → Outcome) :
    ∀ (stmts : List Str) (i : Nat) (log : List Str) (res : List QueryResult)
      (evs : List Event),
      (∀ s ∈ stmts, pyStrip s ≠ []) →
      (∀ j, j < stmts.length → (db (i + j)).isOk = true) →
      execLoop db stmts i log res evs =
        ⟨true, successMessage, log ++ logsFrom db i stmts,
          some (res ++ resultsFrom db i stmts),
          evs ++ stmts.map Event.exec ++ [Event.commit]⟩ := by
  intro stmts
  induction stmts with
  | nil =>
    intro i log res evs _ _
    simp [execLoop, logsFrom, resultsFrom]
  | cons s rest ih =>
    intro i log res evs hne hok
    have hs : ¬ pyStrip s = [] := hne s (List.mem_cons_self s rest)
    have hne2 : ∀ t ∈ rest, pyStrip t ≠ [] := fun t ht => hne t (List.mem_cons_of_mem s ht)
    have hok2 : ∀ j, j < rest.length → (db (i + 1 + j)).isOk = true := by
      intro j hj
      have := hok (j + 1) (by simp only [List.length_cons]; omega)
      rwa [show i + (j + 1) = i + 1 + j by omega] at this
    have h0 := hok 0 (by simp)
    rw [Nat.add_zero] at h0
    rcases hdb : db i with ⟨cols, rows⟩ | m
    · rw [execLoop_cons_ok s rest log res evs hs hdb]
      have hlog : logsFrom db i (s :: rest) = stmtLog db i s ++ logsFrom db (i + 1) rest := rfl
      by_cases hsel : isSelect s
      · rw [if_pos hsel, ih (i + 1) _ _ _ hne2 hok2]
        simp only [LoopOut.mk.injEq, true_and]
        refine ⟨?_, ?_, ?_⟩
        · rw [hlog]
          simp [stmtLog, hdb, hsel]
        · rw [show resultsFrom db i (s :: rest) =
            ⟨cols, rows⟩ :: resultsFrom db (i + 1) rest by simp [resultsFrom, hdb, hsel]]
          simp
        · simp
      · rw [if_neg hsel, ih (i + 1) _ _ _ hne2 hok2]
        simp only [LoopOut.mk.injEq, true_and]
        refine ⟨?_, ?_, ?_⟩
        · rw [hlog]
          simp [stmtLog, hdb, hsel]
        · rw [show resultsFrom db i (s :: rest) =
            resultsFrom db (i + 1) rest by simp [resultsFrom, hdb, hsel]]
        · simp
    · rw [hdb] at h0
      exact absurd h0 (by simp [Outcome.isOk])

theorem execLoop_first_err (db : Nat → Outcome) :
    ∀ (stmts : List Str) (k i : Nat) (log : List Str) (res : List QueryResult)
      (evs : List Event) (m : Str),
      (∀ s ∈ stmts, pyStrip s ≠ []) →
      (∀ j, j < k → (db (i + j)).isOk = true) →
      k < stmts.length →
      db (i + k) = Outcome.err m →
      execLoop db stmts i log res evs =
        ⟨false, m, log ++ logsFrom db i (stmts.take (k + 1)), none,
          evs ++ (stmts.take (k + 1)).map Event.exec⟩ := by
  intro stmts
  induction stmts with
  | nil =>
    intro k i log res evs m _ _ hk _
    simp at hk
  | cons s rest ih =>
    intro k i log res evs m hne hok hk herr
    have hs : ¬ pyStrip s = [] := hne s (List.mem_cons_self s rest)
    have hne2 : ∀ t ∈ rest, pyStrip t ≠ [] := fun t ht => hne t (List.mem_cons_of_mem s ht)
    cases k with
    | zero =>
      rw [show i + 0 = i by omega] at herr
      rw [execLoop_cons_err s rest log res evs hs herr]
      simp only [List.take_succ_cons, List.take_zero, List.map_cons, List.map_nil]
      have : logsFrom db i [s] = stmtLog db i s := by simp [logsFrom]
      rw [this]
      simp [stmtLog, herr]
    | succ k2 =>
      have h0 := hok 0 (by omega)
      rw [show i + 0 = i by omega] at h0
      rcases hdb : db i with ⟨cols, rows⟩ | m2
      · rw [execLoop_cons_ok s rest log res evs hs hdb]
        have hok2 : ∀ j, j < k2 → (db (i + 1 + j)).isOk = true := by
          intro j hj
          have := hok (j + 1) (by omega)
          rwa [show i + (j + 1) = i + 1 + j by omega] at this
        have hk2 : k2 < rest.length := by
          simp only [List.length_cons] at hk
          omega
        have herr2 : db (i + 1 + k2) = Outcome.err m := by
          rwa [show i + 1 + k2 = i + (k2 + 1) by omega]
        have hlog : logsFrom db i ((s :: rest).take (k2 + 1 + 1)) =
            stmtLog db i s ++ logsFrom db (i + 1) (rest.take (k2 + 1)) := by
          simp [logsFrom]
        by_cases hsel : isSelect s
        · rw [if_pos hsel, ih k2 (i + 1) _ _ _ m hne2 hok2 hk2 herr2]
          simp only [LoopOut.mk.injEq, true_and]
          refine ⟨?_, ?_⟩
          · rw [hlog]
            simp [stmtLog, hdb, hsel]
          · simp
        · rw [if_neg hsel, ih k2 (i + 1) _ _ _ m hne2 hok2 hk2 herr2]
          simp only [LoopOut.mk.injEq, true_and]
          refine ⟨?_, ?_⟩
          · rw [hlog]
            simp [stmtLog, hdb, hsel]
          · simp
      · rw [hdb] at h0
        exact absurd h0 (by simp [Outcome.isOk])

theorem execute_sqlite_eq (db : Nat → Outcome) (sql_code : Str) :
    execute "sqlite".toList false db sql_code =
      ⟨(execLoop db (split_sql_statements sql_code) 0 [] [] []).success,
        (execLoop db (split_sql_statements sql_code) 0 [] [] []).message,
        joinNL (execLoop db (split_sql_statements sql_code) 0 [] [] []).logList,
        (execLoop db (split_sql_statements sql_code) 0 [] [] []).results,
        (execLoop db (split_sql_statements sql_code) 0 [] [] []).events, []⟩ := rfl

theorem split_stmts_nonblank (sql_code : Str) :
    ∀ s ∈ split_sql_statements sql_code, pyStrip s ≠ [] := by
  intro s hs
  have h := splitLoop_wf (splitOnNewline sql_code) []
    (splitOnNewline_no_newline sql_code) (List.not_mem_nil '\n') s hs
  intro hn
  exact h.2.1 (h.1 ▸ hn)

/-- C1: `execute` runs the split statements strictly in order.  If the first
engine error occurs at statement `k`, it stops there: the trace is exactly the
`cursor.execute` calls for statements `0..k` with no commit, and the returned
dictionary is `success=false` with that statement's error message and the log
accumulated up to and including statement `k` (and no `results` key).  If
every statement succeeds, the trace is all the `cursor.execute` calls followed
by exactly one commit, and the returned dictionary is `success=true` with the
full log and the collected `SELECT` results. -/
theorem C1_execute_transactional (db : Nat → Outcome) (sql_code : Str) :
    (∀ k m, k < (split_sql_statements sql_code).length →
      (∀ j, j < k → (db j).isOk = true) →
      db k = Outcome.err m →
      execute "sqlite".toList false db sql_code =
        ⟨false, m,
          joinNL (logsFrom db 0 ((split_sql_statements sql_code).take (k + 1))), none,
          ((split_sql_statements sql_code).take (k + 1)).map Event.exec, []⟩ ∧
      Event.commit ∉ (execute "sqlite".toList false db sql_code).events) ∧
    ((∀ j, j < (split_sql_statements sql_code).length → (db j).isOk = true) →
      execute "sqlite".toList false db sql_code =
        ⟨true, successMessage,
          joinNL (logsFrom db 0 (split_sql_statements sql_code)),
          some (resultsFrom db 0 (split_sql_statements sql_code)),
          (split_sql_statements sql_code).map Event.exec ++ [Event.commit], []⟩ ∧
      (execute "sqlite".toList false db sql_code).events.count Event.commit = 1) := by
  have hwf := split_stmts_nonblank sql_code
  constructor
  · intro k m hk hok herr
    have hloop := execLoop_first_err db (split_sql_statements sql_code) k 0 [] [] [] m hwf
      (by intro j hj; rw [Nat.zero_add]; exact hok j hj) hk
      (by rw [Nat.zero_add]; exact herr)
    have heq : execute "sqlite".toList false db sql_code =
        ⟨false, m,
          joinNL (logsFrom db 0 ((split_sql_statements sql_code).take (k + 1))), none,
          ((split_sql_statements sql_code).take (k + 1)).map Event.exec, []⟩ := by
      rw [execute_sqlite_eq, hloop]
      simp
    refine ⟨heq, ?_⟩
    rw [heq]
    intro hmem
    rcases List.mem_map.mp hmem with ⟨s, _, habs⟩
    exact Event.noConfusion habs
  · intro hok
    have hloop := execLoop_all_ok db (split_sql_statements sql_code) 0 [] [] [] hwf
      (by intro j hj; rw [Nat.zero_add]; exact hok j hj)
    have heq : execute "sqlite".toList false db sql_code =
        ⟨true, successMessage,
          joinNL (logsFrom db 0 (split_sql_statements sql_code)),
          some (resultsFrom db 0 (split_sql_statements sql_code)),
          (split_sql_statements sql_code).map Event.exec ++ [Event.commit], []⟩ := by
      rw [execute_sqlite_eq, hloop]
      simp
    refine ⟨heq, ?_⟩
    rw [heq]
    simp only [List.count_append]
    have h1 : (List.map Event.exec (split_sql_statements sql_code)).count Event.commit = 0 := by
      rw [List.count_eq_zero]
      intro hmem
      rcases List.mem_map.mp hmem with ⟨s, _, habs⟩
      exact Event.noConfusion habs
    rw [h1]
    simp

/-- A database oracle whose second `cursor.execute` call fails. -/
def witnessDbErr : Nat → Outcome :=
  fun i => if i = 1 then Outcome.err "boom".toList else Outcome.ok ["one".toList] [["1".toList]]

/-- A database oracle where every call succeeds. -/
def witnessDbOk : Nat → Outcome :=
  fun _ => Outcome.ok ["one".toList] [["1".toList]]

/-- A three-statement script. -/
def witnessSql : Str :=
  "CREATE TABLE t (x INTEGER NOT NULL);\nINSERT INTO t (x) VALUES (NULL);\nSELECT 1;".toList

/-- Witness for C1 at a concrete script and engine behaviour. -/
theorem C1_witness :
    (1 < (split_sql_statements witnessSql).length ∧
      (∀ j, j < 1 → (witnessDbErr j).isOk = true) ∧
      witnessDbErr 1 = Outcome.err "boom".toList ∧
      (∀ j, j < (split_sql_statements witnessSql).length → (witnessDbOk j).isOk = true)) ∧
    (execute "sqlite".toList false witnessDbErr witnessSql =
        ⟨false, "boom".toList,
          joinNL (logsFrom witnessDbErr 0 ((split_sql_statements witnessSql).take 2)), none,
          ((split_sql_statements witnessSql).take 2).map Event.exec, []⟩ ∧
      Event.commit ∉ (execute "sqlite".toList false witnessDbErr witnessSql).events) ∧
    (execute "sqlite".toList false witnessDbOk witnessSql =
        ⟨true, successMessage,
          joinNL (logsFrom witnessDbOk 0 (split_sql_statements witnessSql)),
          some (resultsFrom witnessDbOk 0 (split_sql_statements witnessSql)),
          (split_sql_statements witnessSql).map Event.exec ++ [Event.commit], []⟩ ∧
      (execute "sqlite".toList false witnessDbOk witnessSql).events.count Event.commit = 1) :=
  ⟨⟨by decide, by decide, by decide, by decide⟩,
    (C1_execute_transactional witnessDbErr witnessSql).1 1 "boom".toList
      (by decide) (by decide) (by decide),
    (C1_execute_transactional witnessDbOk witnessSql).2 (by decide)⟩

/-- C7 as claimed is false at `db_engine="mysql"`: the failure surfaced by
`execute` carries the generic connection-failure message, not the
`NotImplementedError`'s message (which `connect` only prints). -/
theorem C7_counterexample :
    (execute "mysql".toList false witnessDbOk "SELECT 1;".toList).success = false ∧
    (execute "mysql".toList false witnessDbOk "SELECT 1;".toList).message =
      "Failed to connect to database".toList ∧
    (execute "mysql".toList false witnessDbOk "SELECT 1;".toList).message ≠
      notImplementedMessage "mysql".toList :=
  ⟨rfl, rfl, by decide⟩

/-- C7 amended: for every `db_engine` other than `"sqlite"`, execution fails
with `success=false`, the caller sees the generic message
`"Failed to connect to database"`, no statement is executed, and the
`NotImplementedError`'s message appears only in what `connect` prints. -/
theorem C7_amended_not_implemented (engine : Str) (db : Nat → Outcome)
    (sql_code : Str) (h : engine ≠ "sqlite".toList) :
    (execute engine false db sql_code).success = false ∧
    (execute engine false db sql_code).message =
      "Failed to connect to database".toList ∧
    (execute engine false db sql_code).events = [] ∧
    (execute engine false db sql_code).printed =
      ["Error connecting to database: ".toList ++ notImplementedMessage engine] := by
  have hok : connectOk engine = false := decide_eq_false h
  have heq : execute engine false db sql_code =
      ⟨false, "Failed to connect to database".toList, [], none, [],
        connectPrinted engine⟩ := by
    unfold execute
    rw [Bool.false_or, hok]
    simp
  rw [heq]
  refine ⟨rfl, rfl, rfl, ?_⟩
  simp [connectPrinted, hok]

/-- Witness for the amended C7 at `db_engine="mysql"`. -/
theorem C7_amended_witness :
    "mysql".toList ≠ "sqlite".toList ∧
    (execute "mysql".toList false witnessDbOk "SELECT 1;".toList).success = false ∧
    (execute "mysql".toList false witnessDbOk "SELECT 1;".toList).message =
      "Failed to connect to database".toList ∧
    (execute "mysql".toList false witnessDbOk "SELECT 1;".toList).events = [] ∧
    (execute "mysql".toList false witnessDbOk "SELECT 1;".toList).printed =
      ["Error connecting to database: ".toList ++ notImplementedMessage "mysql".toList] :=
  ⟨by decide,
    C7_amended_not_implemented "mysql".toList witnessDbOk "SELECT 1;".toList (by decide)⟩

/-! ### The SQL synthesizers (claims C2, C3, C4, C5, C8)

`NLToSQLConverter` (nl_to_sql.py) and `ERToSQLConverter` (er_to_sql.py) share
the schema-description format and the `_generate_create_table` code; they
differ in `_generate_relationship` and in the header line of the ER
generator. -/

/-- An attribute: `{name, type, is_primary_key, is_nullable}`. -/
structure Attribute where
  name : Str
  type : Str
  is_primary_key : Bool
  is_nullable : Bool
deriving DecidableEq

/-- An entity: a table name and an ordered list of attributes. -/
structure Entity where
  name : Str
  attributes : List Attribute
deriving DecidableEq

/-- A relationship: `{type, entity1, entity2}`. -/
structure Relationship where
  type : Str
  entity1 : Str
  entity2 : Str
deriving DecidableEq

/-- A schema description: `{entities, relationships}`. -/
structure SchemaDescription where
  entities : List Entity
  relationships : List Relationship
deriving DecidableEq

/-- Python `",\n".join`. -/
def joinCommaNL : List Str → Str
  | [] => []
  | [l] => l
  | l :: ls => l ++ ',' :: '\n' :: joinCommaNL ls

/-- Python `", ".join`. -/
def joinCommaSp : List Str → Str
  | [] => []
  | [l] => l
  | l :: ls => l ++ ',' :: ' ' :: joinCommaSp ls

namespace NLToSQL

/-- The column-collection loop of `_generate_create_table` (nl_to_sql.py,
lines 92-105): accumulates the column definitions and the primary-key
attribute names, in attribute order. -/
def collectColumns : List Attribute → List Str → List Str → List Str × List Str
  | [], columns, primary_keys => (columns, primary_keys)
  | attr :: rest, columns, primary_keys =>
    let column_def := "    ".toList ++ attr.name ++ ' ' :: attr.type
    let column_def2 :=
      if attr.is_nullable = false then column_def ++ " NOT NULL".toList else column_def
    let primary_keys2 :=
      if attr.is_primary_key then primary_keys ++ [attr.name] else primary_keys
    collectColumns rest (columns ++ [column_def2]) primary_keys2

/-- The clause list joined by `_generate_create_table`: the collected column
definitions, plus the composite `PRIMARY KEY` clause when any primary key was
collected (lines 107-110). -/
def tableClauses (entity : Entity) : List Str :=
  let cp := collectColumns entity.attributes [] []
  if cp.2 ≠ [] then
    cp.1 ++ ["    PRIMARY KEY (".toList ++ joinCommaSp cp.2 ++ ")".toList]
  else cp.1

/-- `NLToSQLConverter._generate_create_table` (nl_to_sql.py, lines 83-113). -/
def generate_create_table (entity : Entity) : Str :=
  "CREATE TABLE ".toList ++ entity.name ++ " (\n".toList
    ++ joinCommaNL (tableClauses entity) ++ "\n);\n\n".toList

/-- `NLToSQLConverter._generate_relationship` (nl_to_sql.py, lines 115-141):
a junction table for `many_to_many`; the empty string for `one_to_many` and
`one_to_one` (and for any unknown type). -/
def generate_relationship (r : Relationship) : Str :=
  if r.type = "many_to_many".toList then
    "CREATE TABLE ".toList ++ (r.entity1 ++ '_' :: r.entity2) ++ " (\n".toList
      ++ "    ".toList ++ r.entity1 ++ "_id INTEGER NOT NULL,\n".toList
      ++ "    ".toList ++ r.entity2 ++ "_id INTEGER NOT NULL,\n".toList
      ++ "    PRIMARY KEY (".toList ++ r.entity1 ++ "_id, ".toList ++ r.entity2 ++ "_id),\n".toList
      ++ "    FOREIGN KEY (".toList ++ r.entity1 ++ "_id) REFERENCES ".toList
      ++ r.entity1 ++ " (id),\n".toList
      ++ "    FOREIGN KEY (".toList ++ r.entity2 ++ "_id) REFERENCES ".toList
      ++ r.entity2 ++ " (id)\n".toList
      ++ ");\n\n".toList
  else if r.type = "one_to_many".toList ∨ r.type = "one_to_one".toList then
    []
  else
    []

/-- `NLToSQLConverter.generate_sql` (nl_to_sql.py, lines 67-81): all entity
tables in order, then all relationship SQL in order. -/
def generate_sql (entities_data : SchemaDescription) : Str :=
  entities_data.relationships.foldl (fun acc r => acc ++ generate_relationship r)
    (entities_data.entities.foldl (fun acc e => acc ++ generate_create_table e) [])

end NLToSQL

namespace ERToSQL

/-- The column-collection loop of `_generate_create_table` (er_to_sql.py,
lines 128-141), identical to the NL converter's. -/
def collectColumns : List Attribute → List Str → List Str → List Str × List Str
  | [], columns, primary_keys => (columns, primary_keys)
  | attr :: rest, columns, primary_keys =>
    let column_def := "    ".toList ++ attr.name ++ ' ' :: attr.type
    let column_def2 :=
      if attr.is_nullable = false then column_def ++ " NOT NULL".toList else column_def
    let primary_keys2 :=
      if attr.is_primary_key then primary_keys ++ [attr.name] else primary_keys
    collectColumns rest (columns ++ [column_def2]) primary_keys2

/-- The clause list joined by `_generate_create_table` (lines 143-146). -/
def tableClauses (entity : Entity) : List Str :=
  let cp := collectColumns entity.attributes [] []
  if cp.2 ≠ [] then
    cp.1 ++ ["    PRIMARY KEY (".toList ++ joinCommaSp cp.2 ++ ")".toList]
  else cp.1

/-- `ERToSQLConverter._generate_create_table` (er_to_sql.py, lines 119-149). -/
def generate_create_table (entity : Entity) : Str :=
  "CREATE TABLE ".toList ++ entity.name ++ " (\n".toList
    ++ joinCommaNL (tableClauses entity) ++ "\n);\n\n".toList

/-- `ERToSQLConverter._generate_relationship` (er_to_sql.py, lines 151-183):
a junction table for `many_to_many`, `ALTER TABLE` statements for
`many_to_one` and `one_to_one` (the latter with a `UNIQUE` column), and the
empty string otherwise. -/
def generate_relationship (r : Relationship) : Str :=
  if r.type = "many_to_many".toList then
    "CREATE TABLE ".toList ++ (r.entity1 ++ '_' :: r.entity2) ++ " (\n".toList
      ++ "    ".toList ++ r.entity1 ++ "_id INTEGER NOT NULL,\n".toList
      ++ "    ".toList ++ r.entity2 ++ "_id INTEGER NOT NULL,\n".toList
      ++ "    PRIMARY KEY (".toList ++ r.entity1 ++ "_id, ".toList ++ r.entity2 ++ "_id),\n".toList
      ++ "    FOREIGN KEY (".toList ++ r.entity1 ++ "_id) REFERENCES ".toList
      ++ r.entity1 ++ " (id),\n".toList
      ++ "    FOREIGN KEY (".toList ++ r.entity2 ++ "_id) REFERENCES ".toList
      ++ r.entity2 ++ " (id)\n".toList
      ++ ");\n\n".toList
  else if r.type = "many_to_one".toList then
    "-- Add foreign key to implement ".toList ++ r.entity1 ++ " to ".toList
      ++ r.entity2 ++ " relationship\n".toList
      ++ "ALTER TABLE ".toList ++ r.entity1 ++ " ADD COLUMN ".toList
      ++ r.entity2 ++ "_id INTEGER;\n".toList
      ++ "ALTER TABLE ".toList ++ r.entity1 ++ " ADD FOREIGN KEY (".toList
      ++ r.entity2 ++ "_id) REFERENCES ".toList ++ r.entity2 ++ " (id);\n\n".toList
  else if r.type = "one_to_one".toList then
    "-- Add foreign key with unique constraint for one-to-one relationship\n".toList
      ++ "ALTER TABLE ".toList ++ r.entity1 ++ " ADD COLUMN ".toList
      ++ r.entity2 ++ "_id INTEGER UNIQUE;\n".toList
      ++ "ALTER TABLE ".toList ++ r.entity1 ++ " ADD FOREIGN KEY (".toList
      ++ r.entity2 ++ "_id) REFERENCES ".toList ++ r.entity2 ++ " (id);\n\n".toList
  else
    []

/-- `ERToSQLConverter._generate_sql` (er_to_sql.py, lines 103-117): a header
comment, then all entity tables in order, then all relationship SQL in
order. -/
def generate_sql (schema_data : SchemaDescription) : Str :=
  schema_data.relationships.foldl (fun acc r => acc ++ generate_relationship r)
    (schema_data.entities.foldl (fun acc e => acc ++ generate_create_table e)
      "-- SQL Generated from ER Diagram\n\n".toList)

end ERToSQL

/-! ### Spec-side clause structure (claims C2, C3, C4) -/

/-- The spec's column clause: `<name> <type>`, with ` NOT NULL` appended
exactly when `is_nullable` is false (four-space indented). -/
def columnClause (a : Attribute) : Str :=
  "    ".toList ++ a.name ++ ' ' :: a.type
    ++ (if a.is_nullable then [] else " NOT NULL".toList)

/-- The primary-key attribute names of an entity, in attribute order. -/
def pkNames (entity : Entity) : List Str :=
  (entity.attributes.filter (fun a => a.is_primary_key)).map (fun a => a.name)

/-- The spec's clause list for a CREATE TABLE: one column clause per
attribute, plus one composite PRIMARY KEY clause iff some attribute is marked
primary key. -/
def specClauses (entity : Entity) : List Str :=
  entity.attributes.map columnClause ++
    (if entity.attributes.any (fun a => a.is_primary_key) then
      ["    PRIMARY KEY (".toList ++ joinCommaSp (pkNames entity) ++ ")".toList]
    else [])

theorem collectColumns_spec (attrs : List Attribute) :
    ∀ (cols pks : List Str),
      NLToSQL.collectColumns attrs cols pks =
        (cols ++ attrs.map columnClause,
          pks ++ (attrs.filter (fun a => a.is_primary_key)).map (fun a => a.name)) := by
  induction attrs with
  | nil =>
    intro cols pks
    simp [NLToSQL.collectColumns]
  | cons a rest ih =>
    intro cols pks
    rw [show NLToSQL.collectColumns (a :: rest) cols pks =
        NLToSQL.collectColumns rest
          (cols ++ [if a.is_nullable = false then
              ("    ".toList ++ a.name ++ ' ' :: a.type) ++ " NOT NULL".toList
            else "    ".toList ++ a.name ++ ' ' :: a.type])
          (if a.is_primary_key then pks ++ [a.name] else pks) from rfl]
    rw [ih]
    cases hn : a.is_nullable <;> cases hp : a.is_primary_key <;>
      simp [columnClause, hn, hp, List.filter_cons, List.append_assoc]

theorem ER_collectColumns_eq (attrs : List Attribute) :
    ∀ (cols pks : List Str),
      ERToSQL.collectColumns attrs cols pks = NLToSQL.collectColumns attrs cols pks := by
  induction attrs with
  | nil =>
    intro cols pks
    rfl
  | cons a rest ih =>
    intro cols pks
    show ERToSQL.collectColumns rest _ _ = NLToSQL.collectColumns (a :: rest) cols pks
    rw [ih]
    rfl

theorem tableClauses_eq_spec (entity : Entity) :
    NLToSQL.tableClauses entity = specClauses entity := by
  unfold NLToSQL.tableClauses
  rw [collectColumns_spec]
  simp only [List.nil_append]
  by_cases h : entity.attributes.any (fun a => a.is_primary_key)
  · have hne : (entity.attributes.filter (fun a => a.is_primary_key)).map
        (fun a => a.name) ≠ [] := by
      rcases List.any_eq_true.mp h with ⟨x, hx, hpx⟩
      have hxf : x ∈ entity.attributes.filter (fun a => a.is_primary_key) :=
        List.mem_filter.mpr ⟨hx, hpx⟩
      intro hnil
      rw [List.map_eq_nil_iff] at hnil
      rw [hnil] at hxf
      exact List.not_mem_nil x hxf
    rw [if_pos hne]
    simp [specClauses, h, pkNames]
  · have hnil : (entity.attributes.filter (fun a => a.is_primary_key)).map
        (fun a => a.name) = [] := by
      rw [List.map_eq_nil_iff, List.filter_eq_nil_iff]
      intro x hx
      simp only [Bool.not_eq_true]
      by_contra hpx
      exact h (List.any_eq_true.mpr ⟨x, hx, by simpa using hpx⟩)
    rw [if_neg (by simpa using hnil)]
    simp [specClauses, h]

/-- C2: for both synthesizers, the CREATE TABLE statement for an entity is
the table name followed by the joined clause list consisting of exactly one
`<name> <type>` column clause per attribute, with ` NOT NULL` appended
exactly when `is_nullable` is false, plus one composite `PRIMARY KEY` clause
listing the primary-key attribute names in attribute order iff at least one
attribute is marked primary key. -/
theorem C2_create_table_shape (entity : Entity) :
    NLToSQL.generate_create_table entity =
      "CREATE TABLE ".toList ++ entity.name ++ " (\n".toList
        ++ joinCommaNL (specClauses entity) ++ "\n);\n\n".toList ∧
    ERToSQL.generate_create_table entity = NLToSQL.generate_create_table entity ∧
    (specClauses entity).length =
      entity.attributes.length +
        (if entity.attributes.any (fun a => a.is_primary_key) then 1 else 0) := by
  refine ⟨?_, ?_, ?_⟩
  · unfold NLToSQL.generate_create_table
    rw [tableClauses_eq_spec]
  · unfold ERToSQL.generate_create_table NLToSQL.generate_create_table
    unfold ERToSQL.tableClauses NLToSQL.tableClauses
    rw [ER_collectColumns_eq]
  · by_cases h : entity.attributes.any (fun a => a.is_primary_key) <;>
      simp [specClauses, h]

/-- The spec's junction-table clause list for a many-to-many relationship:
the two NOT NULL integer foreign-key columns, the composite primary key over
both, and the two foreign-key constraints referencing each parent's `id`. -/
def junctionClauses (e1 e2 : Str) : List Str :=
  ["    ".toList ++ e1 ++ "_id INTEGER NOT NULL".toList,
   "    ".toList ++ e2 ++ "_id INTEGER NOT NULL".toList,
   "    PRIMARY KEY (".toList ++ e1 ++ "_id, ".toList ++ e2 ++ "_id)".toList,
   "    FOREIGN KEY (".toList ++ e1 ++ "_id) REFERENCES ".toList ++ e1 ++ " (id)".toList,
   "    FOREIGN KEY (".toList ++ e2 ++ "_id) REFERENCES ".toList ++ e2 ++ " (id)".toList]

/-- C3: for a many-to-many relationship both synthesizers emit exactly one
junction table, named `<entity1>_<entity2>`, whose clause list is exactly the
five clauses of `junctionClauses`: two `INTEGER NOT NULL` columns
`<entity1>_id` and `<entity2>_id`, one composite PRIMARY KEY over both, and
exactly two FOREIGN KEY constraints, one referencing each parent's `id`. -/
theorem C3_many_to_many_junction (e1 e2 : Str) :
    NLToSQL.generate_relationship ⟨"many_to_many".toList, e1, e2⟩ =
      "CREATE TABLE ".toList ++ (e1 ++ '_' :: e2) ++ " (\n".toList
        ++ joinCommaNL (junctionClauses e1 e2) ++ "\n);\n\n".toList ∧
    ERToSQL.generate_relationship ⟨"many_to_many".toList, e1, e2⟩ =
      NLToSQL.generate_relationship ⟨"many_to_many".toList, e1, e2⟩ ∧
    (junctionClauses e1 e2).length = 5 := by
  refine ⟨?_, rfl, rfl⟩
  show "CREATE TABLE ".toList ++ (e1 ++ '_' :: e2) ++ " (\n".toList
      ++ "    ".toList ++ e1 ++ "_id INTEGER NOT NULL,\n".toList
      ++ "    ".toList ++ e2 ++ "_id INTEGER NOT NULL,\n".toList
      ++ "    PRIMARY KEY (".toList ++ e1 ++ "_id, ".toList ++ e2 ++ "_id),\n".toList
      ++ "    FOREIGN KEY (".toList ++ e1 ++ "_id) REFERENCES ".toList
      ++ e1 ++ " (id),\n".toList
      ++ "    FOREIGN KEY (".toList ++ e2 ++ "_id) REFERENCES ".toList
      ++ e2 ++ " (id)\n".toList
      ++ ");\n\n".toList = _
  simp only [junctionClauses, joinCommaNL, List.append_assoc, List.cons_append]
  rfl

/-- The `one_to_one` SQL of the ER synthesizer: an added `UNIQUE` integer
column followed by the foreign-key constraint. -/
def oneToOneSql (e1 e2 : Str) : Str :=
  "-- Add foreign key with unique constraint for one-to-one relationship\n".toList
    ++ "ALTER TABLE ".toList ++ e1 ++ " ADD COLUMN ".toList
    ++ e2 ++ "_id INTEGER UNIQUE;\n".toList
    ++ "ALTER TABLE ".toList ++ e1 ++ " ADD FOREIGN KEY (".toList
    ++ e2 ++ "_id) REFERENCES ".toList ++ e2 ++ " (id);\n\n".toList

/-- C4 as claimed is false for the NL synthesizer: for the one-to-one
relationship between `a` and `b` it emits the empty string, not the
`ALTER TABLE ... UNIQUE ... FOREIGN KEY` statements. -/
theorem C4_counterexample :
    NLToSQL.generate_relationship ⟨"one_to_one".toList, "a".toList, "b".toList⟩ = [] ∧
    NLToSQL.generate_relationship ⟨"one_to_one".toList, "a".toList, "b".toList⟩ ≠
      oneToOneSql "a".toList "b".toList :=
  ⟨rfl, by decide⟩

/-- C4 amended: only the ER synthesizer emits, for a one-to-one relationship,
the `ALTER TABLE <entity1> ADD COLUMN <entity2>_id INTEGER UNIQUE` statement
followed by the `ALTER TABLE <entity1> ADD FOREIGN KEY` statement referencing
`<entity2>.id`; the NL synthesizer contributes the empty string. -/
theorem C4_one_to_one (e1 e2 : Str) :
    ERToSQL.generate_relationship ⟨"one_to_one".toList, e1, e2⟩ = oneToOneSql e1 e2 ∧
    NLToSQL.generate_relationship ⟨"one_to_one".toList, e1, e2⟩ = [] :=
  ⟨rfl, rfl⟩

/-- C5: for a one-to-many relationship, both synthesizers contribute the
empty string. -/
theorem C5_one_to_many_empty (e1 e2 : Str) :
    NLToSQL.generate_relationship ⟨"one_to_many".toList, e1, e2⟩ = [] ∧
    ERToSQL.generate_relationship ⟨"one_to_many".toList, e1, e2⟩ = [] :=
  ⟨rfl, rfl⟩

/-- C8: SQL synthesis from a schema description is a pure function of the
description: equal inputs yield identical output strings, in both
synthesizers. -/
theorem C8_synthesis_deterministic (d1 d2 : SchemaDescription) (h : d1 = d2) :
    NLToSQL.generate_sql d1 = NLToSQL.generate_sql d2 ∧
    ERToSQL.generate_sql d1 = ERToSQL.generate_sql d2 := by
  rw [h]
  exact ⟨rfl, rfl⟩

/-- The placeholder schema hard-coded in `extract_entities`. -/
def placeholderSchema : SchemaDescription :=
  ⟨[⟨"users".toList,
      [⟨"id".toList, "INTEGER".toList, true, false⟩,
        ⟨"username".toList, "TEXT".toList, false, false⟩]⟩], []⟩

/-- Witness for C8 at the placeholder schema. -/
theorem C8_witness :
    placeholderSchema = placeholderSchema ∧
    NLToSQL.generate_sql placeholderSchema = NLToSQL.generate_sql placeholderSchema ∧
    ERToSQL.generate_sql placeholderSchema = ERToSQL.generate_sql placeholderSchema :=
  ⟨rfl, C8_synthesis_deterministic placeholderSchema placeholderSchema rfl⟩

/-! ### Name sanitisation (claim C9)

Models of `sanitize_table_name` and `sanitize_column_name` (helpers.py,
lines 6-30).  Python's regex class `\w` and `str.lower()`/`str.isdigit()` are
modelled over ASCII. -/

/-- Python's regex class `\w` (ASCII): letters, digits, underscore. -/
def isWordChar (c : Char) : Bool := c.isAlphanum || c = '_'

/-- `re.sub(r'[^\w]', '_', name)`: replace each non-word character by `_`. -/
def subNonWord (s : Str) : Str :=
  s.map (fun c => if isWordChar c then c else '_')

/-- Python `str.lower()` (ASCII). -/
def pyLower (s : Str) : Str := s.map Char.toLower

/-- `sanitize_table_name`.  Indexing `name[0]` of the empty string raises
`IndexError`, modelled as `none`. -/
def sanitize_table_name (name : Str) : Option Str :=
  match pyLower (subNonWord name) with
  | [] => none
  | c :: cs => if c.isDigit then some ("t_".toList ++ c :: cs) else some (c :: cs)

/-- `sanitize_column_name`: identical except for the `c_` prefix. -/
def sanitize_column_name (name : Str) : Option Str :=
  match pyLower (subNonWord name) with
  | [] => none
  | c :: cs => if c.isDigit then some ("c_".toList ++ c :: cs) else some (c :: cs)

theorem uint32_le_iff_toNat {a b : UInt32} : a ≤ b ↔ a.toNat ≤ b.toNat := by
  rw [UInt32.le_def, BitVec.le_def]
  exact Iff.rfl

theorem isUpper_iff (c : Char) : c.isUpper = true ↔ (65 ≤ c.toNat ∧ c.toNat ≤ 90) := by
  unfold Char.isUpper
  rw [Bool.and_eq_true, decide_eq_true_eq, decide_eq_true_eq,
    ge_iff_le, uint32_le_iff_toNat, uint32_le_iff_toNat]
  exact Iff.rfl

theorem isLower_iff (c : Char) : c.isLower = true ↔ (97 ≤ c.toNat ∧ c.toNat ≤ 122) := by
  unfold Char.isLower
  rw [Bool.and_eq_true, decide_eq_true_eq, decide_eq_true_eq,
    ge_iff_le, uint32_le_iff_toNat, uint32_le_iff_toNat]
  exact Iff.rfl

theorem isDigit_iff (c : Char) : c.isDigit = true ↔ (48 ≤ c.toNat ∧ c.toNat ≤ 57) := by
  unfold Char.isDigit
  rw [Bool.and_eq_true, decide_eq_true_eq, decide_eq_true_eq,
    ge_iff_le, uint32_le_iff_toNat, uint32_le_iff_toNat]
  exact Iff.rfl

theorem toNat_ofNat_valid {n : Nat} (h : n.isValidChar) : (Char.ofNat n).toNat = n := by
  rw [Char.ofNat, dif_pos h]
  rfl

theorem toLower_toNat (c : Char) :
    (Char.toLower c).toNat =
      if 65 ≤ c.toNat ∧ c.toNat ≤ 90 then c.toNat + 32 else c.toNat := by
  unfold Char.toLower
  by_cases h : 65 ≤ c.toNat ∧ c.toNat ≤ 90
  · rw [if_pos h, if_pos ⟨h.1, h.2⟩]
    have hch : c.toNat < 0xd800 := by
      omega
    exact toNat_ofNat_valid (Or.inl (by omega))
  · rw [if_neg h, if_neg h]

theorem toLower_not_upper (c : Char) : (Char.toLower c).isUpper = false := by
  rw [← Bool.not_eq_true, isUpper_iff, toLower_toNat]
  by_cases h : 65 ≤ c.toNat ∧ c.toNat ≤ 90
  · rw [if_pos h]
    omega
  · rw [if_neg h]
    omega

theorem isWordChar_toLower {c : Char} (h : isWordChar c = true) :
    isWordChar (Char.toLower c) = true := by
  unfold Char.toLower
  by_cases hr : 65 ≤ c.toNat ∧ c.toNat ≤ 90
  · rw [if_pos ⟨hr.1, hr.2⟩]
    have ht : (Char.ofNat (c.toNat + 32)).toNat = c.toNat + 32 :=
      toNat_ofNat_valid (Or.inl (by omega))
    unfold isWordChar Char.isAlphanum Char.isAlpha
    rw [Bool.or_eq_true, Bool.or_eq_true, Bool.or_eq_true]
    left
    left
    right
    rw [isLower_iff, ht]
    omega
  · rw [if_neg hr]
    exact h

theorem subNonWord_word (s : Str) : ∀ c ∈ subNonWord s, isWordChar c = true := by
  intro c hc
  rcases List.mem_map.mp hc with ⟨x, _, hx⟩
  by_cases h : isWordChar x
  · rw [if_pos h] at hx
    rw [← hx]
    exact h
  · rw [if_neg h] at hx
    rw [← hx]
    decide

theorem pyLower_subNonWord_good (name : Str) :
    ∀ c ∈ pyLower (subNonWord name), isWordChar c = true ∧ c.isUpper = false := by
  intro c hc
  rcases List.mem_map.mp hc with ⟨x, hxmem, hx⟩
  subst hx
  exact ⟨isWordChar_toLower (subNonWord_word name x hxmem), toLower_not_upper x⟩

/-- C9: both sanitisers raise `IndexError` (modelled `none`) on the empty
string; for every non-empty input they return a non-empty string that
contains only (lowercased) word characters, contains no uppercase letter, and
does not start with a digit. -/
theorem C9_sanitize_names :
    (sanitize_table_name [] = none ∧ sanitize_column_name [] = none) ∧
    (∀ name : Str, name ≠ [] →
      ∃ r, sanitize_table_name name = some r ∧ r ≠ [] ∧
        (∀ c ∈ r, isWordChar c = true) ∧ (∀ c ∈ r, c.isUpper = false) ∧
        (∀ c, r.head? = some c → c.isDigit = false)) ∧
    (∀ name : Str, name ≠ [] →
      ∃ r, sanitize_column_name name = some r ∧ r ≠ [] ∧
        (∀ c ∈ r, isWordChar c = true) ∧ (∀ c ∈ r, c.isUpper = false) ∧
        (∀ c, r.head? = some c → c.isDigit = false)) := by
  refine ⟨⟨rfl, rfl⟩, ?_, ?_⟩
  · intro name hname
    have hgood := pyLower_subNonWord_good name
    rcases hs : pyLower (subNonWord name) with _ | ⟨a, cs⟩
    · exfalso
      apply hname
      have hlen := congrArg List.length hs
      simp [pyLower, subNonWord] at hlen
      exact hlen
    · rw [hs] at hgood
      by_cases hd : a.isDigit
      · refine ⟨'t' :: '_' :: a :: cs, ?_, by simp, ?_, ?_, ?_⟩
        · unfold sanitize_table_name
          rw [hs]
          show (if a.isDigit = true then some ("t_".toList ++ a :: cs)
            else some (a :: cs)) = some ('t' :: '_' :: a :: cs)
          rw [if_pos hd]
          rfl
        · intro x hx
          rcases List.mem_cons.mp hx with rfl | hx
          · decide
          rcases List.mem_cons.mp hx with rfl | hx
          · decide
          · exact (hgood x hx).1
        · intro x hx
          rcases List.mem_cons.mp hx with rfl | hx
          · decide
          rcases List.mem_cons.mp hx with rfl | hx
          · decide
          · exact (hgood x hx).2
        · intro x hx
          simp only [List.head?] at hx
          cases hx
          decide
      · refine ⟨a :: cs, ?_, by simp, fun x hx => (hgood x hx).1,
          fun x hx => (hgood x hx).2, ?_⟩
        · unfold sanitize_table_name
          rw [hs]
          show (if a.isDigit = true then some ("t_".toList ++ a :: cs)
            else some (a :: cs)) = some (a :: cs)
          rw [if_neg hd]
        · intro x hx
          simp only [List.head?] at hx
          cases hx
          simpa using hd
  · intro name hname
    have hgood := pyLower_subNonWord_good name
    rcases hs : pyLower (subNonWord name) with _ | ⟨a, cs⟩
    · exfalso
      apply hname
      have hlen := congrArg List.length hs
      simp [pyLower, subNonWord] at hlen
      exact hlen
    · rw [hs] at hgood
      by_cases hd : a.isDigit
      · refine ⟨'c' :: '_' :: a :: cs, ?_, by simp, ?_, ?_, ?_⟩
        · unfold sanitize_column_name
          rw [hs]
          show (if a.isDigit = true then some ("c_".toList ++ a :: cs)
            else some (a :: cs)) = some ('c' :: '_' :: a :: cs)
          rw [if_pos hd]
          rfl
        · intro x hx
          rcases List.mem_cons.mp hx with rfl | hx
          · decide
          rcases List.mem_cons.mp hx with rfl | hx
          · decide
          · exact (hgood x hx).1
        · intro x hx
          rcases List.mem_cons.mp hx with rfl | hx
          · decide
          rcases List.mem_cons.mp hx with rfl | hx
          · decide
          · exact (hgood x hx).2
        · intro x hx
          simp only [List.head?] at hx
          cases hx
          decide
      · refine ⟨a :: cs, ?_, by simp, fun x hx => (hgood x hx).1,
          fun x hx => (hgood x hx).2, ?_⟩
        · unfold sanitize_column_name
          rw [hs]
          show (if a.isDigit = true then some ("c_".toList ++ a :: cs)
            else some (a :: cs)) = some (a :: cs)
          rw [if_neg hd]
        · intro x hx
          simp only [List.head?] at hx
          cases hx
          simpa using hd

/-- Witness for C9 at the concrete name `"My Table!"`. -/
theorem C9_witness :
    ("My Table!".toList ≠ []) ∧
    (∃ r, sanitize_table_name "My Table!".toList = some r ∧ r ≠ [] ∧
      (∀ c ∈ r, isWordChar c = true) ∧ (∀ c ∈ r, c.isUpper = false) ∧
      (∀ c, r.head? = some c → c.isDigit = false)) ∧
    (∃ r, sanitize_column_name "My Table!".toList = some r ∧ r ≠ [] ∧
      (∀ c ∈ r, isWordChar c = true) ∧ (∀ c ∈ r, c.isUpper = false) ∧
      (∀ c, r.head? = some c → c.isDigit = false)) :=
  ⟨by decide, C9_sanitize_names.2.1 "My Table!".toList (by decide),
    C9_sanitize_names.2.2 "My Table!".toList (by decide)⟩

end SmartDB
